import Mathlib

/-!
Verification of the Athyre storefront theme scripts.

Shallow embedding of the client-side modules:
- `ProductForm` (variant resolution, initial variant precedence, stock label)
- `CartDrawer` (quantity changes, removal, add-to-cart control release)
- `Wishlist`, `RecentlyViewed`, `CookieConsent` (bounded localStorage lists)

Each Lean definition is translated from the corresponding JavaScript
function; fallible external calls (fetch, JSON.parse) are modelled by
explicit outcome parameters.
-/

namespace Athyre

/-! ## Data model

A `Variant` mirrors the variant records in the product JSON consumed by
`ProductForm` (assets/product-form.js): identifier, option-value tuple,
prices in minor units, availability, inventory tracking/quantity, and an
optional featured image. -/

structure FeaturedImage where
  src : String
  alt : Option String
  deriving Repr, DecidableEq

structure Variant where
  id : Int
  options : List String
  price : Int
  compare_at_price : Option Int
  available : Bool
  inventory_management : Bool
  inventory_quantity : Int
  featured_image : Option FeaturedImage
  deriving Repr, DecidableEq

/-- The product invariant from the data model: every variant's option
tuple has length `n` (the number of product options) and no two variants
share an identical option tuple. -/
def ProductWellFormed (variants : List Variant) (n : Nat) : Prop :=
  (∀ v ∈ variants, v.options.length = n) ∧
  variants.Pairwise (fun a b => a.options ≠ b.options)

/-! ## ProductForm.getVariantFromOptions

JavaScript source:
```
getVariantFromOptions(options) {
    return this.variants.find(variant => {
        return options.every((option, index) => variant.options[index] === option);
    });
}
```
The selection is the array built by `getSelectedOptions`: entry `i` is
the value currently selected for option index `i`.  `options.every`
compares `variant.options[index]` (which is `undefined`, hence unequal,
when `index` is out of range) against each selected value. -/

/-- `optionsMatch sel vopts` is the JavaScript predicate
`sel.every((option, index) => vopts[index] === option)`. -/
def optionsMatch : List String → List String → Bool
  | [], _ => true
  | _ :: _, [] => false
  | s :: srest, o :: orest => s == o && optionsMatch srest orest

def getVariantFromOptions (variants : List Variant) (selection : List String) :
    Option Variant :=
  variants.find? (fun v => optionsMatch selection v.options)

/-! ## ProductForm.getInitialVariant

JavaScript source:
```
getInitialVariant() {
    const urlParams = new URLSearchParams(window.location.search);
    const variantId = urlParams.get('variant');
    if (variantId) {
        const variant = this.variants.find(v => v.id === parseInt(variantId));
        if (variant) return variant;
    }
    return this.variants.find(v => v.available) || this.variants[0];
}
```
`urlVariant` is `none` when the URL has no (or an empty) `variant`
parameter; a parameter that parses to a number matching no variant
behaves like any unmatched id. -/

def getInitialVariant (variants : List Variant) (urlVariant : Option Int) :
    Option Variant :=
  match urlVariant with
  | some vid =>
    match variants.find? (fun v => v.id == vid) with
    | some v => some v
    | none => (variants.find? (fun v => v.available)).orElse (fun _ => variants.head?)
  | none => (variants.find? (fun v => v.available)).orElse (fun _ => variants.head?)

/-! ## ProductForm.updateStockStatus

JavaScript source:
```
if (!this.currentVariant.available) {
    ... 'Out of Stock' ...
} else if (this.currentVariant.inventory_management &&
    this.currentVariant.inventory_quantity <= 5 &&
    this.currentVariant.inventory_quantity > 0) {
    ... `Only ${this.currentVariant.inventory_quantity} left` ...
} else {
    ... 'In Stock' ...
}
``` -/

inductive StockLabel where
  | outOfStock
  | onlyNLeft (n : Int)
  | inStock
  deriving Repr, DecidableEq

def updateStockStatus (v : Variant) : StockLabel :=
  if !v.available then
    .outOfStock
  else if v.inventory_management && v.inventory_quantity ≤ 5 &&
      v.inventory_quantity > 0 then
    .onlyNLeft v.inventory_quantity
  else
    .inStock

/-! ## CartDrawer

The cart mutation paths are modelled as effect traces; the outcome of the
`fetch` round trip is an explicit parameter. -/

/-- Outcome of a `fetch` call: resolved with an ok status, resolved with a
non-success status, or rejected (network error / thrown exception). -/
inductive FetchOutcome where
  | ok
  | httpError
  | rejected
  deriving Repr, DecidableEq

inductive DrawerEffect where
  | setLoading (loading : Bool)
  | sendUpdate (key : String) (qty : Int)
  | doRefresh
  | logError
  | disableSubmit
  | enableSubmit
  | sendAdd
  | alertUser
  | openDrawer
  | dispatchAdd
  deriving Repr, DecidableEq

/-- `CartDrawer.updateItem(key, quantity)`:
```
this._setLoading(true);
try {
    const response = await fetch(...{ id: key, quantity }...);
    if (!response.ok) throw new Error('Update failed');
    await this.refresh();
} catch (e) {
    console.error('CartDrawer: Update failed', e);
} finally {
    this._setLoading(false);
}
```
`refresh` catches all its own failures, so the try block after an ok
response always reaches the refresh call. -/
def updateItemTrace (key : String) (quantity : Int) (outcome : FetchOutcome) :
    List DrawerEffect :=
  [.setLoading true, .sendUpdate key quantity] ++
  (match outcome with
   | .ok => [.doRefresh]
   | .httpError => [.logError]
   | .rejected => [.logError]) ++
  [.setLoading false]

/-- `CartDrawer.removeItem(key)` is `await this.updateItem(key, 0)`. -/
def removeItemTrace (key : String) (outcome : FetchOutcome) : List DrawerEffect :=
  updateItemTrace key 0 outcome

/-- `CartDrawer.changeQuantity(key, change)`:
```
const currentQty = parseInt(quantityEl?.textContent || '1', 10);
const newQty = Math.max(0, currentQty + change);
if (newQty === 0) { await this.removeItem(key); return; }
await this.updateItem(key, newQty);
```
`displayed` is the DOM read: the quantity currently rendered for each
line key. -/
def changeQuantityTrace (displayed : String → Int) (key : String) (change : Int)
    (outcome : FetchOutcome) : List DrawerEffect :=
  let currentQty := displayed key
  let newQty := max 0 (currentQty + change)
  if newQty = 0 then
    removeItemTrace key outcome
  else
    updateItemTrace key newQty outcome

/-- `CartDrawer.addItem(form)`:
```
if (submitBtn) { submitBtn.disabled = true; ... }
try {
    const response = await fetch(...);
    if (!response.ok) { ... throw new Error(...); }
    await this.refresh();
    this.open();
    document.dispatchEvent(new CustomEvent('cart:add', ...));
} catch (e) {
    console.error(...); alert(...);
} finally {
    if (submitBtn) { submitBtn.disabled = false; ... }
}
```
`hasButton` records whether the form has a submit control to disable. -/
def addItemTrace (hasButton : Bool) (outcome : FetchOutcome) : List DrawerEffect :=
  (if hasButton then [.disableSubmit] else []) ++
  [.sendAdd] ++
  (match outcome with
   | .ok => [.doRefresh, .openDrawer, .dispatchAdd]
   | .httpError => [.logError, .alertUser]
   | .rejected => [.logError, .alertUser]) ++
  (if hasButton then [.enableSubmit] else [])

/-! ## ProductForm.onFormSubmit

The add-to-cart button state set by `updateAddToCartState(enabled, text)`
along the AJAX submit path:
```
this.updateAddToCartState(false, 'Adding...');
try {
    ... fetch ...
    if (!response.ok) throw new Error('Add to cart failed');
    ...
    this.updateAddToCartState(true, 'Added!');
    ...
} catch (error) {
    ...
    this.updateAddToCartState(true, 'Error - Try Again');
    ...
}
``` -/
def onFormSubmitStates (outcome : FetchOutcome) : List (Bool × String) :=
  [(false, "Adding...")] ++
  (match outcome with
   | .ok => [(true, "Added!")]
   | .httpError => [(true, "Error - Try Again")]
   | .rejected => [(true, "Error - Try Again")])

/-! ## Interleaving model for overlapping changeQuantity calls

Two `changeQuantity(key, +delta)` invocations on the same line are each a
sequence of three atomic steps taken from the source:
read the displayed quantity, send the absolute update (the server stores
the sent quantity), refresh (the displayed quantity becomes the server
quantity).  A schedule interleaves the two instances; nothing in
`cart-drawer.js` prevents the second instance from reading before the
first has refreshed. -/

structure CQInstance where
  pc : Nat
  localQty : Int
  deriving Repr, DecidableEq

structure CQState where
  server : Int
  displayed : Int
  inst1 : CQInstance
  inst2 : CQInstance
  deriving Repr, DecidableEq

def cqStepOne (delta : Int) (server displayed : Int) (inst : CQInstance) :
    Int × Int × CQInstance :=
  match inst.pc with
  | 0 => (server, displayed, ⟨1, displayed⟩)
  | 1 => (max 0 (inst.localQty + delta), displayed, ⟨2, inst.localQty⟩)
  | 2 => (server, server, ⟨3, inst.localQty⟩)
  | _ => (server, displayed, inst)

def cqStep (delta : Int) (s : CQState) (second : Bool) : CQState :=
  if second then
    let r := cqStepOne delta s.server s.displayed s.inst2
    ⟨r.1, r.2.1, s.inst1, r.2.2⟩
  else
    let r := cqStepOne delta s.server s.displayed s.inst1
    ⟨r.1, r.2.1, r.2.2, s.inst2⟩

def cqRun (delta : Int) (init : CQState) (sched : List Bool) : CQState :=
  sched.foldl (cqStep delta) init

def cqInit (q : Int) : CQState :=
  ⟨q, q, ⟨0, 0⟩, ⟨0, 0⟩⟩

/-- A schedule in which the second call starts (reads the displayed
quantity) before the first call's refresh has landed. -/
def overlappedSchedule : List Bool := [false, true, false, false, true, true]

/-- A schedule in which the second call begins only after the first has
fully settled (sent and refreshed). -/
def serializedSchedule : List Bool := [false, false, false, true, true, true]

/-! ## Wishlist (src/unnamed/part_000)

```
add(handle) {
    if (!handle) return false;
    const items = this.getAll();
    if (items.includes(handle)) return false;
    if (items.length >= this.MAX_ITEMS) { items.shift(); }
    items.push(handle);
    this._save(items);
    ...
    return true;
}
```
`MAX_ITEMS = 50`; a falsy handle is the empty string. -/

def wishlistMax : Nat := 50

def wishlistAdd (items : List String) (handle : String) : Bool × List String :=
  if handle = "" then (false, items)
  else if handle ∈ items then (false, items)
  else
    let items' := if wishlistMax ≤ items.length then items.drop 1 else items
    (true, items' ++ [handle])

/-! ## RecentlyViewed (assets/recently-viewed.js)

```
add(handle) {
    if (!handle) return;
    let items = this.getAll();
    items = items.filter(h => h !== handle);
    items.unshift(handle);
    if (items.length > this.MAX_ITEMS) { items = items.slice(0, this.MAX_ITEMS); }
    this._save(items);
}
```
`MAX_ITEMS = 12`. -/

def recentlyViewedMax : Nat := 12

def recentlyViewedAdd (items : List String) (handle : String) : List String :=
  if handle = "" then items
  else
    let filtered := items.filter (fun h => h ≠ handle)
    let fronted := handle :: filtered
    if recentlyViewedMax < fronted.length then fronted.take recentlyViewedMax
    else fronted

/-! ## Storage read accessors with safe defaults

`Wishlist.getAll` / `RecentlyViewed.getAll`:
```
try {
    const data = localStorage.getItem(this.STORAGE_KEY);
    return data ? JSON.parse(data) : [];
} catch (e) { ...; return []; }
```
`CookieConsent.getConsent`:
```
try {
    const details = localStorage.getItem(this.STORAGE_KEY + '_details');
    return details ? JSON.parse(details)
                   : { analytics: false, marketing: false, preferences: false };
} catch (e) { return { analytics: false, marketing: false, preferences: false }; }
```
The stored value is `none` when the key is missing; `JSON.parse` is the
platform's fallible parser, modelled as an explicit `Except`-valued
function (a thrown exception is the `.error` case, caught by the
`catch`).  A stored empty string is falsy and takes the default branch. -/

def storageGetAll (parse : String → Except String (List String))
    (stored : Option String) : List String :=
  match stored with
  | none => []
  | some data =>
    if data = "" then []
    else
      match parse data with
      | .ok items => items
      | .error _ => []

structure ConsentState where
  analytics : Bool
  marketing : Bool
  preferences : Bool
  deriving Repr, DecidableEq

def defaultConsent : ConsentState :=
  ⟨false, false, false⟩

def getConsent (parse : String → Except String ConsentState)
    (stored : Option String) : ConsentState :=
  match stored with
  | none => defaultConsent
  | some details =>
    if details = "" then defaultConsent
    else
      match parse details with
      | .ok c => c
      | .error _ => defaultConsent

/-! ## Helper lemmas -/

/-- A small constructor for concrete variants used in witnesses. -/
def mkVariant (id : Int) (opts : List String) (avail : Bool) : Variant :=
  ⟨id, opts, 1000, none, avail, false, 0, none⟩

/-- The matching predicate of the claim: for every option index present in
the selection, the variant's option value at that index equals the
selected value. -/
def SelMatches (selection : List String) (v : Variant) : Prop :=
  ∀ i value, selection.get? i = some value → v.options.get? i = some value

/-- `List.find?` returns `some a` exactly when `a` sits at some position `i`,
satisfies the predicate, and every earlier element fails it. -/
theorem find_first_char {α : Type} (p : α → Bool) :
    ∀ (l : List α) (a : α), l.find? p = some a ↔
      ∃ i, l.get? i = some a ∧ p a = true ∧
        ∀ j, j < i → ∀ b, l.get? j = some b → p b = false
  | [], a => by simp [List.find?]
  | x :: l, a => by
    cases hp : p x with
    | true =>
      rw [List.find?_cons_of_pos _ hp]
      constructor
      · intro h
        injection h with h
        subst h
        exact ⟨0, rfl, hp, fun j hj b => absurd hj (Nat.not_lt_zero j)⟩
      · rintro ⟨i, hget, hpa, hfirst⟩
        cases i with
        | zero =>
          simp only [List.get?_cons_zero] at hget
          injection hget with hget
          subst hget
          rfl
        | succ k =>
          have := hfirst 0 (Nat.succ_pos k) x (by simp)
          rw [hp] at this
          cases this
    | false =>
      rw [List.find?_cons_of_neg _ (by simp [hp])]
      rw [find_first_char p l a]
      constructor
      · rintro ⟨i, hget, hpa, hfirst⟩
        refine ⟨i + 1, by simpa using hget, hpa, fun j hj b hb => ?_⟩
        cases j with
        | zero =>
          simp only [List.get?_cons_zero] at hb
          injection hb with hb
          subst hb
          exact hp
        | succ k =>
          exact hfirst k (Nat.lt_of_succ_lt_succ hj) b (by simpa using hb)
      · rintro ⟨i, hget, hpa, hfirst⟩
        cases i with
        | zero =>
          simp only [List.get?_cons_zero] at hget
          injection hget with hget
          subst hget
          rw [hp] at hpa
          cases hpa
        | succ k =>
          refine ⟨k, by simpa using hget, hpa, fun j hj b hb => ?_⟩
          exact hfirst (j + 1) (Nat.succ_lt_succ hj) b (by simpa using hb)

/-- The head of a `take` from a cons is the head, for a positive count. -/
theorem head_of_take_pos {α : Type} (n : Nat) (hn : 0 < n) (a : α)
    (l : List α) : (List.take n (a :: l)).head? = some a := by
  cases n with
  | zero => omega
  | succ k => simp

/-- Removing one present element from a duplicate-free list by filtering
drops the length by exactly one. -/
theorem length_filter_ne_of_nodup {a : String} :
    ∀ l : List String, l.Nodup → a ∈ l →
      (l.filter (fun h => h ≠ a)).length = l.length - 1
  | [], _, hmem => by cases hmem
  | x :: rest, hnd, hmem => by
    rcases List.nodup_cons.mp hnd with ⟨hx, hrest⟩
    by_cases hax : x = a
    · subst hax
      have hfil : rest.filter (fun h => h ≠ x) = rest :=
        List.filter_eq_self.mpr (fun b hb => by
          simp only [decide_eq_true_eq]
          exact fun hbx => hx (hbx ▸ hb))
      rw [List.filter_cons, if_neg (by simp), hfil]
      simp
    · have hmem' : a ∈ rest := by
        rcases List.mem_cons.mp hmem with heq | hmm
        · exact absurd heq.symm hax
        · exact hmm
      have ih := length_filter_ne_of_nodup rest hrest hmem'
      have hlen0 : 0 < rest.length := List.length_pos.mpr
        (fun hnil => by subst hnil; cases hmem')
      simp only [List.filter_cons]
      rw [if_pos (by simp [hax])]
      simp only [List.length_cons, ih]
      omega

/-- The code's boolean predicate agrees with the claim's matching rule. -/
theorem optionsMatch_iff (sel : List String) : ∀ opts : List String,
    (optionsMatch sel opts = true ↔
      ∀ i value, sel.get? i = some value → opts.get? i = some value) := by
  induction sel with
  | nil =>
    intro opts
    simp [optionsMatch]
  | cons s srest ih =>
    intro opts
    cases opts with
    | nil =>
      simp only [optionsMatch]
      constructor
      · intro h
        cases h
      · intro h
        have h0 := h 0 s (by simp)
        simp at h0
    | cons o orest =>
      simp only [optionsMatch, Bool.and_eq_true, beq_iff_eq]
      rw [ih orest]
      constructor
      · rintro ⟨rfl, h⟩ i value hv
        cases i with
        | zero => simpa using hv
        | succ k => exact h k value (by simpa using hv)
      · intro h
        have h0 := h 0 s (by simp)
        simp only [List.get?_cons_zero] at h0
        injection h0 with h0
        exact ⟨h0.symm, fun i value hv => h (i + 1) value (by simpa using hv)⟩

/-- A selection matched in full (same length) pins down the option tuple. -/
theorem optionsMatch_eq_of_length : ∀ (sel opts : List String),
    optionsMatch sel opts = true → opts.length = sel.length → opts = sel
  | [], [], _, _ => rfl
  | [], _ :: _, _, h => by cases h
  | _ :: _, [], h, _ => by cases h
  | s :: srest, o :: orest, hm, hl => by
    simp only [optionsMatch, Bool.and_eq_true, beq_iff_eq] at hm
    simp only [List.length_cons, Nat.succ.injEq] at hl
    rw [hm.1, optionsMatch_eq_of_length srest orest hm.2 hl]

theorem optionsMatch_refl : ∀ sel : List String, optionsMatch sel sel = true
  | [] => rfl
  | s :: srest => by
    simp [optionsMatch, optionsMatch_refl srest]

/-- In a pairwise-distinct-tuple list, the option tuple identifies the
variant. -/
theorem pairwise_options_inj : ∀ {variants : List Variant},
    variants.Pairwise (fun a b => a.options ≠ b.options) →
    ∀ {v w : Variant}, v ∈ variants → w ∈ variants →
      v.options = w.options → v = w := by
  intro variants hp
  induction variants with
  | nil => intro v w hv; cases hv
  | cons x rest ih =>
    rcases List.pairwise_cons.mp hp with ⟨hx, hrest⟩
    intro v w hv hw h
    rcases List.mem_cons.mp hv with rfl | hv'
    · rcases List.mem_cons.mp hw with rfl | hw'
      · rfl
      · exact absurd h (hx w hw')
    · rcases List.mem_cons.mp hw with rfl | hw'
      · exact absurd h.symm (hx v hv')
      · exact ih hrest hv' hw' h

/-! ## Claim theorems -/

/-- C3: the derived availability label has exactly three mutually
exclusive tiers: "Out of Stock" when `available = false`; "Only N left"
when `available = true`, inventory is tracked, and `0 < quantity ≤ 5`
(with `N` the quantity); and "In Stock" in all other `available = true`
cases. -/
theorem C3_stock_label_tiers (v : Variant) :
    (updateStockStatus v = .outOfStock ↔ v.available = false) ∧
    (∀ n : Int, updateStockStatus v = .onlyNLeft n ↔
      v.available = true ∧ v.inventory_management = true ∧
      0 < n ∧ n ≤ 5 ∧ v.inventory_quantity = n) ∧
    (updateStockStatus v = .inStock ↔ v.available = true ∧
      ¬(v.inventory_management = true ∧
        0 < v.inventory_quantity ∧ v.inventory_quantity ≤ 5)) := by
  obtain ⟨id, opts, price, cap, avail, im, qty, img⟩ := v
  cases avail <;> cases im <;>
    simp only [updateStockStatus, Bool.not_true, Bool.not_false, if_true,
      if_false, Bool.true_and, Bool.false_and] <;>
    constructor <;> try constructor
  all_goals
    simp_all [updateStockStatus, StockLabel.onlyNLeft.injEq]
  all_goals
    try omega
  all_goals
    split_ifs with h <;> simp_all <;> omega

/-- C4: `changeQuantity` reads the displayed quantity for the line,
clamps `displayed + delta` at zero, behaves exactly as `removeItem` when
the clamp yields zero, and otherwise issues exactly one update request
carrying the new absolute quantity. -/
theorem C4_changeQuantity_clamp (displayed : String → Int) (key : String)
    (change : Int) (outcome : FetchOutcome) :
    (max 0 (displayed key + change) = 0 →
      changeQuantityTrace displayed key change outcome =
        removeItemTrace key outcome) ∧
    (max 0 (displayed key + change) ≠ 0 →
      (changeQuantityTrace displayed key change outcome).filter
          (fun e => match e with | .sendUpdate _ _ => true | _ => false) =
        [.sendUpdate key (max 0 (displayed key + change))]) := by
  constructor
  · intro h
    simp [changeQuantityTrace, h]
  · intro h
    cases outcome <;>
      simp [changeQuantityTrace, h, updateItemTrace, List.filter]

/-- C4 witness: with displayed quantity 1 and delta −1 the call reduces to
`removeItem`; with delta +1 it issues exactly one update with absolute
quantity 2. -/
theorem C4_changeQuantity_clamp_witness :
    changeQuantityTrace (fun _ => 1) "line1" (-1) .ok =
      removeItemTrace "line1" .ok ∧
    (changeQuantityTrace (fun _ => 1) "line1" 1 .ok).filter
        (fun e => match e with | .sendUpdate _ _ => true | _ => false) =
      [.sendUpdate "line1" (max 0 ((fun _ => (1 : Int)) "line1" + 1))] :=
  ⟨(C4_changeQuantity_clamp (fun _ => 1) "line1" (-1) .ok).1 (by decide),
   (C4_changeQuantity_clamp (fun _ => 1) "line1" 1 .ok).2 (by decide)⟩

/-- C6 counterexample: a rejected update fetch during `removeItem` does
not trigger a refresh — `refresh` is only reached after an ok response,
so the claim "always triggers a refresh regardless of success/failure"
fails on the code. -/
theorem C6_remove_no_refresh_on_reject :
    DrawerEffect.doRefresh ∉ removeItemTrace "line1" FetchOutcome.rejected := by
  decide

/-- C6 amended: `removeItem` issues an update to quantity zero and always
clears the loading state afterward, but triggers a refresh only when the
update request succeeds; on a non-success response or rejected fetch the
failure is logged and no refresh occurs. -/
theorem C6_remove_refresh_iff_ok (key : String) (outcome : FetchOutcome) :
    removeItemTrace key outcome = updateItemTrace key 0 outcome ∧
    (DrawerEffect.doRefresh ∈ removeItemTrace key outcome ↔
      outcome = .ok) ∧
    (DrawerEffect.logError ∈ removeItemTrace key outcome ↔
      outcome ≠ .ok) ∧
    (removeItemTrace key outcome).getLast? = some (.setLoading false) := by
  cases outcome <;>
    simp [removeItemTrace, updateItemTrace]

/-- C7: whenever the add-to-cart path disables its triggering control,
the control is re-enabled on every outcome: `CartDrawer.addItem` ends
with the submit control enabled (the `finally` release), and
`ProductForm.onFormSubmit` leaves the add-to-cart button in an enabled
state on success, failure response, and thrown exception alike. -/
theorem C7_control_reenabled (outcome pfOutcome : FetchOutcome) :
    DrawerEffect.disableSubmit ∈ addItemTrace true outcome ∧
    (addItemTrace true outcome).getLast? = some .enableSubmit ∧
    (onFormSubmitStates pfOutcome).getLast?.map Prod.fst = some true := by
  cases outcome <;> cases pfOutcome <;>
    simp [addItemTrace, onFormSubmitStates]

/-- C8: `Wishlist.add` returns `false` and leaves the stored list
unchanged when the handle is already present; when the handle is absent
(and truthy) and the list already holds 50 entries, it evicts the oldest
(first) entry before appending, and the count never exceeds 50. -/
theorem C8_wishlist_add_cap (items : List String) (handle : String) :
    (handle ∈ items → wishlistAdd items handle = (false, items)) ∧
    (handle ∉ items → handle ≠ "" → items.length = 50 →
      wishlistAdd items handle = (true, items.drop 1 ++ [handle]) ∧
      (wishlistAdd items handle).2.length = 50) ∧
    (items.length ≤ 50 → (wishlistAdd items handle).2.length ≤ 50) := by
  refine ⟨fun h => ?_, fun h1 h2 h3 => ?_, fun h => ?_⟩
  · by_cases he : handle = ""
    · simp [wishlistAdd, he]
    · simp [wishlistAdd, he, h]
  · have hcond : wishlistMax ≤ items.length := by
      rw [h3]
      decide
    have heq : wishlistAdd items handle = (true, items.drop 1 ++ [handle]) := by
      simp [wishlistAdd, h1, h2, hcond]
    refine ⟨heq, ?_⟩
    rw [heq]
    simp [h3]
  · unfold wishlistAdd
    split_ifs with he hm hc
    · exact h
    · exact h
    · simp only [List.length_append, List.length_drop, List.length_cons,
        List.length_nil]
      simp only [wishlistMax] at hc
      omega
    · simp only [List.length_append, List.length_cons, List.length_nil]
      simp only [wishlistMax, not_le] at hc
      omega

/-- C8 witness: adding a present handle returns `false` unchanged, and
adding a fresh handle to a full 50-entry list drops the oldest entry and
stays at 50. -/
theorem C8_wishlist_add_cap_witness :
    wishlistAdd ["a", "b"] "a" = (false, ["a", "b"]) ∧
    (wishlistAdd (List.replicate 50 "x") "y" =
      (true, (List.replicate 50 "x").drop 1 ++ ["y"]) ∧
    (wishlistAdd (List.replicate 50 "x") "y").2.length = 50) :=
  ⟨(C8_wishlist_add_cap ["a", "b"] "a").1 (by decide),
   (C8_wishlist_add_cap (List.replicate 50 "x") "y").2.1
     (by decide) (by decide) (by decide)⟩

/-- C9: `RecentlyViewed.add` on a handle already present in a
well-formed stored list (no duplicates, at most 12 entries) moves the
handle to the front without duplicating it and without changing the
count; every add of a truthy handle leaves at most 12 entries with the
new handle most-recent (at the head); adds preserve duplicate-freedom. -/
theorem C9_recentlyViewed_move_front (items : List String) (handle : String) :
    (handle ≠ "" →
      (recentlyViewedAdd items handle).length ≤ 12 ∧
      (recentlyViewedAdd items handle).head? = some handle) ∧
    (handle ≠ "" → handle ∈ items → items.Nodup → items.length ≤ 12 →
      recentlyViewedAdd items handle =
        handle :: items.filter (fun h => h ≠ handle) ∧
      (recentlyViewedAdd items handle).length = items.length ∧
      (recentlyViewedAdd items handle).Nodup) ∧
    (items.Nodup → (recentlyViewedAdd items handle).Nodup) := by
  have hfilter_nodup : ∀ l : List String,
      l.Nodup → (l.filter (fun h => h ≠ handle)).Nodup :=
    fun l hl => hl.filter _
  have hnotmem : handle ∉ items.filter (fun h => h ≠ handle) := by
    intro hmem
    have := List.of_mem_filter hmem
    simp at this
  have hcons_nodup : items.Nodup →
      (handle :: items.filter (fun h => h ≠ handle)).Nodup :=
    fun hnd => List.nodup_cons.mpr ⟨hnotmem, hfilter_nodup items hnd⟩
  refine ⟨fun hne => ?_, fun hne hmem hnd hlen => ?_, fun hnd => ?_⟩
  · unfold recentlyViewedAdd
    simp only [if_neg hne]
    split_ifs with hc
    · constructor
      · rw [List.length_take]
        exact le_trans (Nat.min_le_left _ _) (by decide)
      · exact head_of_take_pos recentlyViewedMax (by decide) handle _
    · constructor
      · simp only [recentlyViewedMax, not_lt] at hc
        simpa [recentlyViewedMax] using hc
      · simp
  · have hlenfil : (items.filter (fun h => h ≠ handle)).length =
        items.length - 1 :=
      length_filter_ne_of_nodup items hnd hmem
    have hlen0 : 0 < items.length := List.length_pos.mpr
      (fun hnil => by subst hnil; cases hmem)
    have hc : ¬ recentlyViewedMax < (handle :: items.filter
        (fun h => h ≠ handle)).length := by
      simp only [List.length_cons, hlenfil, recentlyViewedMax, not_lt]
      omega
    have heq : recentlyViewedAdd items handle =
        handle :: items.filter (fun h => h ≠ handle) := by
      unfold recentlyViewedAdd
      simp only [if_neg hne]
      rw [if_neg hc]
    refine ⟨heq, ?_, ?_⟩
    · rw [heq]
      simp only [List.length_cons, hlenfil]
      omega
    · rw [heq]
      exact hcons_nodup hnd
  · have hbase := hcons_nodup hnd
    by_cases hne : handle = ""
    · unfold recentlyViewedAdd
      rw [if_pos hne]
      exact hnd
    · unfold recentlyViewedAdd
      rw [if_neg hne]
      show (if recentlyViewedMax <
            (handle :: items.filter (fun h => h ≠ handle)).length
          then List.take recentlyViewedMax
            (handle :: items.filter (fun h => h ≠ handle))
          else handle :: items.filter (fun h => h ≠ handle)).Nodup
      split_ifs with hc
      · exact List.Nodup.sublist (List.take_sublist _ _) hbase
      · exact hbase

/-- C9 witness: adding the already-present handle "b" to ["a", "b", "c"]
moves it to the front, keeps the count at 3, and preserves
duplicate-freedom. -/
theorem C9_recentlyViewed_move_front_witness :
    recentlyViewedAdd ["a", "b", "c"] "b" =
      "b" :: (["a", "b", "c"].filter (fun h => h ≠ "b")) ∧
    (recentlyViewedAdd ["a", "b", "c"] "b").length = (["a", "b", "c"] : List String).length ∧
    (recentlyViewedAdd ["a", "b", "c"] "b").Nodup :=
  (C9_recentlyViewed_move_front ["a", "b", "c"] "b").2.1
    (by decide) (by decide) (by decide) (by decide)

/-- C10: every storage read accessor returns a safe default on a missing
key and on malformed (unparsable) JSON: the wishlist and recently-viewed
lists come back empty and the consent record comes back all-false,
instead of an exception propagating. -/
theorem C10_storage_safe_defaults
    (parseList : String → Except String (List String))
    (parseConsent : String → Except String ConsentState)
    (data e1 e2 : String) :
    storageGetAll parseList none = [] ∧
    (parseList data = .error e1 →
      storageGetAll parseList (some data) = []) ∧
    getConsent parseConsent none = defaultConsent ∧
    (parseConsent data = .error e2 →
      getConsent parseConsent (some data) = defaultConsent) ∧
    defaultConsent.analytics = false ∧ defaultConsent.marketing = false ∧
    defaultConsent.preferences = false := by
  refine ⟨rfl, fun h => ?_, rfl, fun h => ?_, rfl, rfl, rfl⟩
  · by_cases he : data = ""
    · simp [storageGetAll, he]
    · simp [storageGetAll, he, h]
  · by_cases he : data = ""
    · simp [getConsent, he]
    · simp [getConsent, he, h]

/-- C10 witness: with a parser that rejects the stored text, both a
missing key and malformed JSON yield the safe defaults. -/
theorem C10_storage_safe_defaults_witness :
    storageGetAll (fun _ => .error "bad") none = [] ∧
    storageGetAll (fun _ => .error "bad") (some "not-json") = [] ∧
    getConsent (fun _ => .error "bad") (some "not-json") = defaultConsent :=
  ⟨(C10_storage_safe_defaults (fun _ => .error "bad")
      (fun _ => .error "bad") "not-json" "bad" "bad").1,
   (C10_storage_safe_defaults (fun _ => .error "bad")
      (fun _ => .error "bad") "not-json" "bad" "bad").2.1 rfl,
   (C10_storage_safe_defaults (fun _ => .error "bad")
      (fun _ => .error "bad") "not-json" "bad" "bad").2.2.2.1 rfl⟩

/-- C5: the code provides no per-line serialization: in the interleaving
permitted by `changeQuantity` where the second call reads the displayed
quantity before the first call's refresh lands, two +1 actions on a line
showing quantity 1 both send absolute quantity 2 and the final server
quantity is 2, not 1 + 2; only the fully serialized schedule yields
1 + 2. -/
theorem C5_overlapping_updates_lose_increment :
    (cqRun 1 (cqInit 1) overlappedSchedule).server = 2 ∧
    (cqRun 1 (cqInit 1) serializedSchedule).server = 1 + 2 ∧
    (cqRun 1 (cqInit 1) overlappedSchedule).server ≠ 1 + 2 := by
  decide

/-- Reduction of `getInitialVariant` at a present URL parameter. -/
theorem getInitialVariant_some_url (variants : List Variant) (vid : Int) :
    getInitialVariant variants (some vid) =
      match variants.find? (fun v => v.id == vid) with
      | some v => some v
      | none =>
        (variants.find? (fun v => v.available)).orElse
          (fun _ => variants.head?) := rfl

/-- C2: for a non-empty variant list the initial variant follows the
precedence (a) the first variant whose id is named by the URL parameter,
when one exists; otherwise (b) the first variant flagged available;
otherwise (c) the first variant in list order. -/
theorem C2_initial_variant_precedence (variants : List Variant)
    (urlVariant : Option Int) (hne : variants ≠ []) :
    (∀ vid, urlVariant = some vid → (∃ v ∈ variants, v.id = vid) →
      ∃ i v, getInitialVariant variants urlVariant = some v ∧
        variants.get? i = some v ∧ v.id = vid ∧
        ∀ j, j < i → ∀ w, variants.get? j = some w → w.id ≠ vid) ∧
    ((urlVariant = none ∨
        ∃ vid, urlVariant = some vid ∧ ∀ w ∈ variants, w.id ≠ vid) →
      ((∃ v ∈ variants, v.available = true) →
        ∃ i v, getInitialVariant variants urlVariant = some v ∧
          variants.get? i = some v ∧ v.available = true ∧
          ∀ j, j < i → ∀ w, variants.get? j = some w →
            w.available = false) ∧
      ((∀ v ∈ variants, v.available = false) →
        ∃ v0, variants.head? = some v0 ∧
          getInitialVariant variants urlVariant = some v0)) := by
  constructor
  · rintro vid rfl ⟨v0, hv0, hid⟩
    have hfind : variants.find? (fun w => w.id == vid) ≠ none := by
      intro hn
      rw [List.find?_eq_none] at hn
      exact hn v0 hv0 (by simp [hid])
    obtain ⟨w, hw⟩ := Option.ne_none_iff_exists'.mp hfind
    obtain ⟨i, hget, hpw, hfirst⟩ := (find_first_char _ variants w).mp hw
    refine ⟨i, w, ?_, hget, by simpa using hpw, fun j hj w' hw' => ?_⟩
    · rw [getInitialVariant_some_url, hw]
    · have := hfirst j hj w' hw'
      simpa using this
  · intro hno
    have hred : getInitialVariant variants urlVariant =
        (variants.find? (fun v => v.available)).orElse
          (fun _ => variants.head?) := by
      rcases hno with rfl | ⟨vid, rfl, hvv⟩
      · rfl
      · have hn : variants.find? (fun v => v.id == vid) = none :=
          List.find?_eq_none.mpr (fun x hx => by simp [hvv x hx])
        rw [getInitialVariant_some_url, hn]
    constructor
    · rintro ⟨v0, hv0, hav⟩
      have hfind : variants.find? (fun v => v.available) ≠ none := by
        intro hn
        rw [List.find?_eq_none] at hn
        exact hn v0 hv0 (by simp [hav])
      obtain ⟨w, hw⟩ := Option.ne_none_iff_exists'.mp hfind
      obtain ⟨i, hget, hpw, hfirst⟩ := (find_first_char _ variants w).mp hw
      refine ⟨i, w, ?_, hget, hpw, fun j hj w' hw' => hfirst j hj w' hw'⟩
      rw [hred, hw]
      rfl
    · intro hall
      have hn : variants.find? (fun v => v.available) = none :=
        List.find?_eq_none.mpr (fun x hx => by simp [hall x hx])
      cases variants with
      | nil => exact absurd rfl hne
      | cons x xs =>
        refine ⟨x, rfl, ?_⟩
        rw [hred, hn]
        rfl

/-- C2 witness: with V1 (id 1) available and V2 (id 2) unavailable, a URL
naming variant 2 selects V2 — the URL override beats "first
available". -/
theorem C2_initial_variant_precedence_witness :
    ∃ i v, getInitialVariant
        [mkVariant 1 ["S"] true, mkVariant 2 ["M"] false] (some 2) = some v ∧
      [mkVariant 1 ["S"] true, mkVariant 2 ["M"] false].get? i = some v ∧
      v.id = 2 ∧
      ∀ j, j < i → ∀ w,
        [mkVariant 1 ["S"] true, mkVariant 2 ["M"] false].get? j = some w →
          w.id ≠ 2 :=
  (C2_initial_variant_precedence
      [mkVariant 1 ["S"] true, mkVariant 2 ["M"] false] (some 2)
      (by decide)).1 2 rfl ⟨mkVariant 2 ["M"] false, by decide, by decide⟩

/-- C1: `resolve` returns variant V exactly when V matches the selection
(every option index present in the selection agrees with V's value there,
absent indices acting as wildcards) and every earlier variant fails to
match; under the product invariant, a selection covering every option
index returns the unique variant with that exact option tuple, or the
no-match sentinel when none exists. -/
theorem C1_resolve_first_match (variants : List Variant)
    (selection : List String) (n : Nat) :
    (∀ v, getVariantFromOptions variants selection = some v ↔
      ∃ i, variants.get? i = some v ∧ SelMatches selection v ∧
        ∀ j, j < i → ∀ w, variants.get? j = some w →
          ¬ SelMatches selection w) ∧
    (ProductWellFormed variants n → selection.length = n →
      (∀ v, getVariantFromOptions variants selection = some v ↔
        v ∈ variants ∧ v.options = selection) ∧
      (getVariantFromOptions variants selection = none ↔
        ∀ v ∈ variants, v.options ≠ selection)) := by
  have hbridge : ∀ v : Variant,
      optionsMatch selection v.options = true ↔ SelMatches selection v :=
    fun v => optionsMatch_iff selection v.options
  constructor
  · intro v
    rw [getVariantFromOptions, find_first_char]
    constructor
    · rintro ⟨i, hget, hpa, hfirst⟩
      refine ⟨i, hget, (hbridge v).mp hpa, fun j hj w hw hsm => ?_⟩
      have hf := hfirst j hj w hw
      rw [(hbridge w).mpr hsm] at hf
      cases hf
    · rintro ⟨i, hget, hsm, hfirst⟩
      refine ⟨i, hget, (hbridge v).mpr hsm, fun j hj w hw => ?_⟩
      cases hcase : optionsMatch selection w.options with
      | false => rfl
      | true => exact absurd ((hbridge w).mp hcase) (hfirst j hj w hw)
  · rintro ⟨hlens, hpair⟩ hlen
    have hmatch_eq : ∀ v ∈ variants,
        (optionsMatch selection v.options = true ↔ v.options = selection) := by
      intro v hv
      constructor
      · intro hm
        exact optionsMatch_eq_of_length selection v.options hm
          (by rw [hlens v hv, hlen])
      · intro he
        rw [he]
        exact optionsMatch_refl selection
    constructor
    · intro v
      constructor
      · intro hfind
        rw [getVariantFromOptions] at hfind
        have hv : v ∈ variants := List.mem_of_find?_eq_some hfind
        have hp := List.find?_some hfind
        exact ⟨hv, (hmatch_eq v hv).mp hp⟩
      · rintro ⟨hv, heq⟩
        cases hfind : getVariantFromOptions variants selection with
        | none =>
          rw [getVariantFromOptions, List.find?_eq_none] at hfind
          exact absurd ((hmatch_eq v hv).mpr heq) (fun hmm => hfind v hv hmm)
        | some w =>
          rw [getVariantFromOptions] at hfind
          have hwmem : w ∈ variants := List.mem_of_find?_eq_some hfind
          have hpw := List.find?_some hfind
          have hweq := (hmatch_eq w hwmem).mp hpw
          rw [pairwise_options_inj hpair hwmem hv (hweq.trans heq.symm)]
    · rw [getVariantFromOptions, List.find?_eq_none]
      constructor
      · intro hall v hv heq
        exact hall v hv ((hmatch_eq v hv).mpr heq)
      · intro hall v hv hp
        exact hall v hv ((hmatch_eq v hv).mp hp)

/-- C1 witness: on a two-variant product with option tuples
("Red", "S") and ("Blue", "S"), the full selection ("Blue", "S") resolves
to the second variant and the combination ("Blue", "M") resolves to the
no-match sentinel. -/
theorem C1_resolve_first_match_witness :
    getVariantFromOptions
        [mkVariant 1 ["Red", "S"] true, mkVariant 2 ["Blue", "S"] true]
        ["Blue", "S"] = some (mkVariant 2 ["Blue", "S"] true) ∧
    getVariantFromOptions
        [mkVariant 1 ["Red", "S"] true, mkVariant 2 ["Blue", "S"] true]
        ["Blue", "M"] = none :=
  ⟨(((C1_resolve_first_match
        [mkVariant 1 ["Red", "S"] true, mkVariant 2 ["Blue", "S"] true]
        ["Blue", "S"] 2).2 (by constructor <;> decide) (by decide)).1
      (mkVariant 2 ["Blue", "S"] true)).mpr ⟨by decide, by decide⟩,
   (((C1_resolve_first_match
        [mkVariant 1 ["Red", "S"] true, mkVariant 2 ["Blue", "S"] true]
        ["Blue", "M"] 2).2 (by constructor <;> decide) (by decide)).2).mpr
      (by decide)⟩

end Athyre
